import Mathlib

/-!
Verification of the Memorium game-dev assistant's serverless boundary layer.

The definitions below are a shallow embedding of the repository's request
handlers and helpers:

* `src/unnamed/part_008` (lines 427-850): the OpenAI-style `/api/generate`
  handler — `isRecord`, `asString`, `clampString`, `safeJsonStringify`,
  `extractJsonObject`, `normaliseAspectRatio`, `aspectRatioToSize`,
  `sanitiseToolCalls`, the action dispatch and the four action branches.
* `src/api/generate.ts` (lines 159-443): the Gemini-style handler —
  `validateInput`, `readJsonBody`-fed dispatch, the catch-all error policy.
* `src/App.tsx` (lines 88-174): `handleCompileBones`, `handleApplyIteration`,
  `handleRevert` acting on the codex/iterations state.

JSON values are modelled by the inductive `Json`; JavaScript strings are
modelled by Lean `String` with character-list based primitives (`jsTrim`,
`strTake`, `jsIncludes`) mirroring the JS operations used by the source.
JSON numbers are carried as their lexeme, which is enough for every claim
(no claim computes with numeric values).
-/

namespace Memorium

/-- Model of a JavaScript JSON value (`JSON.parse` output / handler payloads).
Numbers keep their source lexeme; object fields keep insertion order and
lookups take the last binding, as JavaScript object literals do. -/
inductive Json where
  | null : Json
  | bool (b : Bool) : Json
  | num (lexeme : String) : Json
  | str (s : String) : Json
  | arr (items : List Json) : Json
  | obj (fields : List (String × Json)) : Json

/-- Property access `o[k]` on an object's field list: the last binding wins,
mirroring JavaScript object semantics. Returns `none` for a missing key
(JavaScript `undefined`). -/
def jGet (fields : List (String × Json)) (k : String) : Option Json :=
  (fields.reverse.find? (fun kv => kv.1 == k)).map (fun kv => kv.2)

/-- Property access `v.k` on an arbitrary value: objects look up the key,
anything else yields `undefined` (`none`). (JavaScript would throw on
`null`/`undefined` receivers; the handlers only dereference values they
have already obtained, so that distinction is kept at the use sites.) -/
def jGetV (v : Json) (k : String) : Option Json :=
  match v with
  | .obj fields => jGet fields k
  | _ => none

/-- Property access on an optional value: `undefined` receivers have no
properties. -/
def jGetO (v : Option Json) (k : String) : Option Json :=
  match v with
  | some w => jGetV w k
  | none => none

/-- The source's `isRecord`: a non-null object that is not an array. In this
model exactly the `obj` constructor. -/
def isRecord (v : Json) : Bool :=
  match v with
  | .obj _ => true
  | _ => false

/-- The source's `asString`: `typeof v === "string" ? v : null`. -/
def asString (v : Json) : Option String :=
  match v with
  | .str s => some s
  | _ => none

/-- `asString` lifted to an optional value (missing field, `undefined`). -/
def asStringO (v : Option Json) : Option String :=
  match v with
  | some w => asString w
  | none => none

/-- JavaScript truthiness test on a JSON value (`!v`): `null`, `false`, the
empty string, and numeric zero are falsy. -/
def Json.isFalsy : Json → Bool
  | .null => true
  | .bool b => !b
  | .str s => s == ""
  | .num lex =>
      ((lex.data.takeWhile (fun c => c ≠ 'e' ∧ c ≠ 'E')).filter Char.isDigit).all
        (fun c => c = '0')
  | _ => false

/-- Characters treated as whitespace by `String.prototype.trim` (the subset
relevant to this codebase). -/
def isJsWs (c : Char) : Bool :=
  c = ' ' || c = '\t' || c = '\n' || c = '\r' || c = '\x0b' || c = '\x0c'

/-- Model of `s.trim()`. -/
def jsTrim (s : String) : String :=
  ⟨((s.data.dropWhile isJsWs).reverse.dropWhile isJsWs).reverse⟩

/-- Model of `s.slice(0, n)`. -/
def strTake (s : String) (n : Nat) : String :=
  ⟨s.data.take n⟩

/-- Model of `s.includes(pat)` on character lists. -/
def listIncludes (pat : List Char) : List Char → Bool
  | [] => pat.isEmpty
  | c :: rest => pat.isPrefixOf (c :: rest) || listIncludes pat rest

/-- Model of `s.includes(pat)`. -/
def jsIncludes (s pat : String) : Bool :=
  listIncludes pat.data s.data

/-- The source's `clampString` (part_008 lines 479-481). -/
def clampString (s : String) (max : Nat) : String :=
  if s.length > max then strTake s max else s

/-- JSON string escaping of one character, as produced by `JSON.stringify`. -/
def escapeChar (c : Char) : List Char :=
  if c = '"' then ['\\', '"']
  else if c = '\\' then ['\\', '\\']
  else if c = '\x08' then ['\\', 'b']
  else if c = '\x0c' then ['\\', 'f']
  else if c = '\n' then ['\\', 'n']
  else if c = '\r' then ['\\', 'r']
  else if c = '\t' then ['\\', 't']
  else if c.toNat < 32 then
    ['\\', 'u', '0', '0',
      (Nat.digitChar (c.toNat / 16)), (Nat.digitChar (c.toNat % 16))]
  else [c]

/-- JSON string escaping of a character list. -/
def escapeList (l : List Char) : List Char :=
  l.foldr (fun c acc => escapeChar c ++ acc) []

/-- A JSON string literal: quotes around the escaped content. -/
def quoteString (s : String) : String :=
  ⟨'"' :: (escapeList s.data ++ ['"'])⟩

mutual

/-- Model of `JSON.stringify` on a JSON value. -/
def Json.stringify : Json → String
  | .null => "null"
  | .bool true => "true"
  | .bool false => "false"
  | .num lex => lex
  | .str s => quoteString s
  | .arr items => "[" ++ stringifyItems items ++ "]"
  | .obj fields => "\x7b" ++ stringifyFields fields ++ "\x7d"

/-- Comma-separated serialization of array items. -/
def stringifyItems : List Json → String
  | [] => ""
  | [x] => Json.stringify x
  | x :: y :: rest => Json.stringify x ++ "," ++ stringifyItems (y :: rest)

/-- Comma-separated serialization of object members. -/
def stringifyFields : List (String × Json) → String
  | [] => ""
  | [kv] => quoteString kv.1 ++ ":" ++ Json.stringify kv.2
  | kv :: kv2 :: rest =>
      quoteString kv.1 ++ ":" ++ Json.stringify kv.2 ++ "," ++
        stringifyFields (kv2 :: rest)

end

/-- The source's `safeJsonStringify` (part_008 lines 483-495). The argument is
optional to model `value ?? null` on a possibly missing field. On this `Json`
model `JSON.stringify` cannot throw, so the circularity fallback is dead. -/
def safeJsonStringify (value : Option Json) (maxChars : Nat) (label : String) :
    String :=
  let str := Json.stringify (value.getD Json.null)
  if str.length > maxChars then
    strTake str maxChars ++ ("... (\"" ++ label ++ "\" truncated)")
  else str

/-- The marker suffix `safeJsonStringify` appends when truncating. -/
def truncationMarker (label : String) : String :=
  "... (\"" ++ label ++ "\" truncated)"

/-- Brace-depth scan of the source's `extractJsonObject`: consume characters,
adjusting depth at every brace (string literals are not tracked), and return
the consumed prefix once depth returns to zero. -/
def extractLoop : List Char → Int → List Char → Option (List Char)
  | [], _, _ => none
  | c :: rest, depth, acc =>
      let depth2 : Int :=
        if c = '\x7b' then depth + 1
        else if c = '\x7d' then depth - 1
        else depth
      let acc2 := acc ++ [c]
      if depth2 = 0 then some acc2 else extractLoop rest depth2 acc2

/-- The source's `extractJsonObject` (part_008 lines 497-514): slice from the
first opening brace to the position where raw brace depth returns to zero. -/
def extractJsonObject (text : String) : Option String :=
  match text.data.dropWhile (fun c => c ≠ '\x7b') with
  | [] => none
  | c :: rest => (extractLoop (c :: rest) 0 []).map (fun l => ⟨l⟩)

/-- The source's `normaliseAspectRatio` (part_008 lines 516-521). The `none`
input is JavaScript `null`; the empty string is also falsy and takes the
same early return. -/
def normaliseAspectRatio (ratio : Option String) : String :=
  match ratio with
  | none => "3:4"
  | some s =>
      if s = "" then "3:4"
      else
        let r := jsTrim s
        if r = "1:1" then r
        else if r = "3:4" then r
        else if r = "4:3" then r
        else "3:4"

/-- The source's `aspectRatioToSize` (part_008 lines 523-537): width and
height in pixels; the `switch` default coincides with the `"3:4"` case. -/
def aspectRatioToSize (ratio : String) : Nat × Nat :=
  if ratio = "1:1" then (1024, 1024)
  else if ratio = "4:3" then (1536, 1024)
  else (1024, 1536)

/-- A sanitized tool call: `{name, args}` with a string name and object args
(part_008 lines 440-443). -/
structure ToolCall where
  name : String
  args : List (String × Json)

/-- One pass of the loop body of `sanitiseToolCalls` (part_008 lines 556-566):
skip non-records, entries without a non-empty string `name`, and entries
whose `args` is not a record; keep everything else. -/
def sanitiseOne (t : Json) : Option ToolCall :=
  match t with
  | .obj fields =>
      match jGet fields "name", jGet fields "args" with
      | some (.str n), some (.obj a) =>
          if n = "" then none else some ⟨n, a⟩
      | _, _ => none
  | _ => none

/-- The source's `sanitiseToolCalls` (part_008 lines 552-569). -/
def sanitiseToolCalls (toolCalls : Json) : List ToolCall :=
  match toolCalls with
  | .arr ts => ts.filterMap sanitiseOne
  | _ => []

/-- Re-embedding of a sanitized tool call as the JSON value the handler
serializes back to the client (`{name, args}`). -/
def toolCallToJson (tc : ToolCall) : Json :=
  .obj [("name", .str tc.name), ("args", .obj tc.args)]

/-- Re-embedding of a sanitized tool-call list as a JSON array. -/
def toolCallsToJson (l : List ToolCall) : Json :=
  .arr (l.map toolCallToJson)

/-- Model of `arr.slice(-n)` for `n > 0`: the last `min n (length)` items. -/
def sliceLast (l : List Json) (n : Nat) : List Json :=
  l.drop (l.length - n)

/-- Limits of the OpenAI-style handler (part_008 lines 448-453). -/
def MAX_MESSAGE_CHARS : Nat := 6000

/-- History window size of the OpenAI-style chat branch (part_008 line 449). -/
def MAX_HISTORY_ITEMS : Nat := 40

/-- Context serialization budget of the OpenAI-style chat branch
(part_008 line 450). -/
def MAX_CONTEXT_CHARS : Nat := 20000

/-- Change-request limit of the OpenAI-style handler (part_008 line 451). -/
def MAX_CHANGE_REQUEST_CHARS : Nat := 4000

/-- Brief serialization budget of the OpenAI-style handler (part_008
line 452). -/
def MAX_BRIEF_JSON_CHARS : Nat := 20000

/-- Codex serialization budget of the OpenAI-style handler (part_008
line 453). -/
def MAX_CODEX_JSON_CHARS : Nat := 40000

/-- Free-text limit of the Gemini-style handler (generate.ts line 78). -/
def MAX_PROMPT_LENGTH : Nat := 2000

/-- The OpenAI-style chat branch's history windowing (part_008 line 784):
a non-array `history` yields `[]`, otherwise `history.slice(-40)`. -/
def chatHistoryWindow (history : Option Json) : List Json :=
  match history with
  | some (.arr l) => sliceLast l MAX_HISTORY_ITEMS
  | _ => []

/-- The Gemini-style chat branch's history windowing (generate.ts line 386):
a non-array `history` yields `[]`, otherwise `history.slice(-10)`. -/
def geminiChatHistoryWindow (history : Option Json) : List Json :=
  match history with
  | some (.arr l) => sliceLast l 10
  | _ => []

/-- The OpenAI-style chat branch's context serialization (part_008
line 785). -/
def chatContextJson (contextData : Option Json) : String :=
  safeJsonStringify contextData MAX_CONTEXT_CHARS "contextData"

/-!
Model of `JSON.parse`: a fuel-indexed recursive-descent parser for the JSON
grammar (RFC 8259) — whitespace, `null`/`true`/`false`, numbers, strings
with escapes, arrays and objects. The handlers call it on provider output
(part_008 lines 679, 748, 830); the fallback paths of the chat branch depend
on when it fails.
-/

/-- JSON insignificant whitespace. -/
def isJsonWs (c : Char) : Bool :=
  c = ' ' || c = '\t' || c = '\n' || c = '\r'

/-- Skip insignificant whitespace. -/
def skipWs (cs : List Char) : List Char :=
  cs.dropWhile isJsonWs

/-- Value of one hexadecimal digit. -/
def hexVal (c : Char) : Option Nat :=
  if '0' ≤ c ∧ c ≤ '9' then some (c.toNat - 48)
  else if 'a' ≤ c ∧ c ≤ 'f' then some (c.toNat - 87)
  else if 'A' ≤ c ∧ c ≤ 'F' then some (c.toNat - 55)
  else none

/-- Parse the body of a JSON string after the opening quote: returns the
decoded characters and the input remaining after the closing quote.
Unescaped control characters and unterminated strings are rejected. -/
def parseStringBody : Nat → List Char → Option (List Char × List Char)
  | 0, _ => none
  | _ + 1, [] => none
  | fuel + 1, c :: rest =>
      if c = '"' then some ([], rest)
      else if c = '\\' then
        match rest with
        | [] => none
        | e :: rest2 =>
            let cont := fun (ch : Char) (rem : List Char) =>
              (parseStringBody fuel rem).map (fun br => (ch :: br.1, br.2))
            if e = '"' then cont '"' rest2
            else if e = '\\' then cont '\\' rest2
            else if e = '/' then cont '/' rest2
            else if e = 'b' then cont '\x08' rest2
            else if e = 'f' then cont '\x0c' rest2
            else if e = 'n' then cont '\n' rest2
            else if e = 'r' then cont '\r' rest2
            else if e = 't' then cont '\t' rest2
            else if e = 'u' then
              match rest2 with
              | h1 :: h2 :: h3 :: h4 :: rest3 =>
                  match hexVal h1, hexVal h2, hexVal h3, hexVal h4 with
                  | some a, some b, some c2, some d =>
                      cont (Char.ofNat (((a * 16 + b) * 16 + c2) * 16 + d)) rest3
                  | _, _, _, _ => none
              | _ => none
            else none
      else if c.toNat < 32 then none
      else (parseStringBody fuel rest).map (fun br => (c :: br.1, br.2))

/-- Parse one or more decimal digits. -/
def parseDigits1 (cs : List Char) : Option (List Char × List Char) :=
  match cs.takeWhile Char.isDigit with
  | [] => none
  | d :: ds => some (d :: ds, cs.drop (d :: ds).length)

/-- Parse a JSON number token and return its lexeme:
`-?(0|[1-9][0-9]*)(\.[0-9]+)?([eE][+-]?[0-9]+)?`. -/
def parseNumberLex (cs : List Char) : Option (List Char × List Char) :=
  let signed :=
    match cs with
    | '-' :: r => (['-'], r)
    | _ => (([] : List Char), cs)
  let sign := signed.1
  let cs1 := signed.2
  let intPart : Option (List Char × List Char) :=
    match cs1 with
    | '0' :: r => some (['0'], r)
    | c :: _ =>
        if c.isDigit then parseDigits1 cs1 else none
    | [] => none
  match intPart with
  | none => none
  | some (ip, cs2) =>
      let fracPart : Option (List Char × List Char) :=
        match cs2 with
        | '.' :: r =>
            match parseDigits1 r with
            | some (ds, r2) => some ('.' :: ds, r2)
            | none => none
        | _ => some ([], cs2)
      match fracPart with
      | none => none
      | some (fp, cs3) =>
          let expPart : Option (List Char × List Char) :=
            match cs3 with
            | e :: r =>
                if e = 'e' ∨ e = 'E' then
                  let esigned :=
                    match r with
                    | '+' :: r2 => (['+'], r2)
                    | '-' :: r2 => (['-'], r2)
                    | _ => (([] : List Char), r)
                  match parseDigits1 esigned.2 with
                  | some (ds, r3) => some (e :: esigned.1 ++ ds, r3)
                  | none => none
                else some ([], cs3)
            | [] => some ([], cs3)
          match expPart with
          | none => none
          | some (ep, cs4) => some (sign ++ ip ++ fp ++ ep, cs4)

mutual

/-- Parse a JSON value (leading whitespace allowed). -/
def parseValue : Nat → List Char → Option (Json × List Char)
  | 0, _ => none
  | fuel + 1, cs =>
      match skipWs cs with
      | [] => none
      | c :: rest =>
          if c = '"' then
            (parseStringBody fuel rest).map (fun br => (Json.str ⟨br.1⟩, br.2))
          else if c = '\x7b' then parseObjRest fuel rest
          else if c = '[' then parseArrRest fuel rest
          else
            match c :: rest with
            | 't' :: 'r' :: 'u' :: 'e' :: r => some (Json.bool true, r)
            | 'f' :: 'a' :: 'l' :: 's' :: 'e' :: r => some (Json.bool false, r)
            | 'n' :: 'u' :: 'l' :: 'l' :: r => some (Json.null, r)
            | _ =>
                (parseNumberLex (c :: rest)).map
                  (fun lr => (Json.num ⟨lr.1⟩, lr.2))

/-- Parse the remainder of an object after the opening brace. -/
def parseObjRest (fuel : Nat) (cs : List Char) : Option (Json × List Char) :=
  match fuel with
  | 0 => none
  | fuel + 1 =>
      match skipWs cs with
      | '\x7d' :: r => some (Json.obj [], r)
      | cs2 => (parseMembers fuel cs2).map (fun mr => (Json.obj mr.1, mr.2))

/-- Parse one or more `"key": value` members followed by the closing brace. -/
def parseMembers (fuel : Nat) (cs : List Char) :
    Option (List (String × Json) × List Char) :=
  match fuel with
  | 0 => none
  | fuel + 1 =>
      match skipWs cs with
      | '"' :: r =>
          match parseStringBody fuel r with
          | none => none
          | some (key, r2) =>
              match skipWs r2 with
              | ':' :: r3 =>
                  match parseValue fuel r3 with
                  | none => none
                  | some (v, r4) =>
                      match skipWs r4 with
                      | ',' :: r5 =>
                          (parseMembers fuel r5).map
                            (fun mr => ((⟨key⟩, v) :: mr.1, mr.2))
                      | '\x7d' :: r5 => some ([(⟨key⟩, v)], r5)
                      | _ => none
              | _ => none
      | _ => none

/-- Parse the remainder of an array after the opening bracket. -/
def parseArrRest (fuel : Nat) (cs : List Char) : Option (Json × List Char) :=
  match fuel with
  | 0 => none
  | fuel + 1 =>
      match skipWs cs with
      | ']' :: r => some (Json.arr [], r)
      | cs2 => (parseElements fuel cs2).map (fun er => (Json.arr er.1, er.2))

/-- Parse one or more array elements followed by the closing bracket. -/
def parseElements (fuel : Nat) (cs : List Char) :
    Option (List Json × List Char) :=
  match fuel with
  | 0 => none
  | fuel + 1 =>
      match parseValue fuel cs with
      | none => none
      | some (v, r) =>
          match skipWs r with
          | ',' :: r2 => (parseElements fuel r2).map (fun er => (v :: er.1, er.2))
          | ']' :: r2 => some ([v], r2)
          | _ => none

end

/-- Model of `JSON.parse`: parse one value and require only whitespace after
it. The fuel exceeds any possible nesting depth of the input. -/
def jsonParse (s : String) : Option Json :=
  match parseValue (s.length + 1) s.data with
  | some (v, rest) => if (skipWs rest).isEmpty then some v else none
  | none => none

/-- The OpenAI-style chat branch's output normalization (part_008 lines
825-842): trim the provider output, try a direct or brace-extracted JSON
parse, read `text` (falling back to the raw output) and sanitize
`toolCalls`; a non-object parse or parse failure degrades to plain text
with no tool calls. -/
structure ChatResult where
  text : String
  toolCalls : List ToolCall

/-- Normalization of the provider's chat output (part_008 lines 825-842). -/
def normaliseChatOutput (output : String) : ChatResult :=
  let raw := jsTrim output
  let jsonText := (extractJsonObject raw).getD raw
  match jsonParse jsonText with
  | none => ⟨raw, []⟩
  | some v =>
      match v with
      | .obj fields =>
          ⟨(match jGet fields "text" with
            | some (.str s) => s
            | _ => raw),
           sanitiseToolCalls ((jGet fields "toolCalls").getD Json.null)⟩
      | _ => ⟨raw, []⟩

/-!
The OpenAI-style handler of part_008 (lines 571-850), modelled up to its
first provider invocation: every validation, dispatch and prompt-composition
step is embedded; the provider call itself is represented by the
`callProvider` outcome carrying the composed request.
-/

/-- A provider request as composed by a handler, at the point the external
API would be awaited. -/
inductive ProviderReq where
  | openaiText (model system user : String) : ProviderReq
  | openaiImage (model prompt size : String) : ProviderReq
  | geminiContent (model contents : String) : ProviderReq
  | geminiImage (model text : String) (aspectRatio : Option Json) : ProviderReq
  | geminiChat (model systemInstruction : String)
      (history : List (String × String)) (message : String) : ProviderReq

/-- Outcome of running a handler up to its first provider call: either an
HTTP response was already produced (the provider is never invoked), or the
handler invokes the provider with the given request. -/
inductive HandlerStep where
  | respond (status : Nat) (body : Json) : HandlerStep
  | callProvider (req : ProviderReq) : HandlerStep

/-- Status of a handler outcome, `none` when the provider is invoked. -/
def stepStatus : HandlerStep → Option Nat
  | .respond s _ => some s
  | .callProvider _ => none

/-- Error body `{error}`. -/
def jsonError (e : String) : Json :=
  .obj [("error", .str e)]

/-- Error body `{error, details}`. -/
def jsonErrorD (e d : String) : Json :=
  .obj [("error", .str e), ("details", .str d)]

/-- The allow-list of actions (part_008 line 586). -/
def allowedActions : List String :=
  ["chat", "compile_bones", "apply_iteration", "generate_image"]

/-- System prompt of the `compile_bones` branch (part_008 lines 647-655). -/
def compileBonesSystem : String :=
  String.intercalate " "
    [ "You are a game development assistant."
    , "You help transform a project brief into a structured game codex."
    , "Return STRICTLY valid JSON only."
    , "Do not include markdown fences."
    , "Return exactly: \x7b\"elements\": <array>\x7d."
    , "The elements array should be stable, well-structured, and suitable for rendering in a UI."
    , "Do not invent personal data. Keep it practical and implementation-ready."
    ]

/-- User prompt of the `compile_bones` branch (part_008 lines 657-664). -/
def compileBonesUser (briefJson : String) : String :=
  String.intercalate "\n"
    [ "Create a structured game codex from this project brief."
    , "Brief JSON:"
    , briefJson
    , ""
    , "Return JSON only:"
    , "\x7b\"elements\":[...]\x7d"
    ]

/-- System prompt of the `apply_iteration` branch (part_008 lines 713-721). -/
def applyIterationSystem : String :=
  String.intercalate " "
    [ "You are a game development assistant."
    , "You update an existing game codex based on a change request."
    , "Return STRICTLY valid JSON only."
    , "Do not include markdown fences."
    , "Return exactly: \x7b\"elements\": <array>\x7d."
    , "Preserve structure unless the change request requires edits."
    , "Be precise and avoid unnecessary churn."
    ]

/-- User prompt of the `apply_iteration` branch (part_008 lines 723-733). -/
def applyIterationUser (codexJson clippedChange : String) : String :=
  String.intercalate "\n"
    [ "Update the game codex elements to satisfy the change request."
    , "Current codex JSON:"
    , codexJson
    , ""
    , "Change request:"
    , clippedChange
    , ""
    , "Return JSON only:"
    , "\x7b\"elements\":[...]\x7d"
    ]

/-- System prompt of the `chat` branch (part_008 lines 787-800). -/
def chatSystem : String :=
  String.intercalate "\n"
    [ "You are Memorium, a game development assistant."
    , "You must follow these rules:"
    , "1) Return STRICTLY valid JSON only (no markdown, no extra text)."
    , "2) Return exactly: \x7b\"text\": string, \"toolCalls\": array\x7d."
    , "3) toolCalls are OPTIONAL. Use them only when a client-side state update is required."
    , "4) If you include toolCalls, keep args minimal and serialisable."
    , "5) Never claim you executed tools; the client will execute them."
    , ""
    , "toolCalls format:"
    , "[\x7b\"name\":\"<toolName>\", \"args\":\x7b...\x7d\x7d]"
    , ""
    , "If no tools are needed, return toolCalls as an empty array."
    ]

/-- User prompt of the `chat` branch (part_008 lines 803-814). -/
def chatUser (contextJson historyJson clippedMessage : String) : String :=
  String.intercalate "\n"
    [ "CONTEXT (JSON):"
    , contextJson
    , ""
    , "HISTORY (most recent last, JSON):"
    , historyJson
    , ""
    , "USER MESSAGE:"
    , clippedMessage
    , ""
    , "Return JSON only."
    ]

/-- Dispatch of the OpenAI-style handler on an allow-listed action
(part_008 lines 596-849), given the request's `payload` field. -/
def openaiDispatch (action : String) (payload : Option Json) : HandlerStep :=
  if action = "generate_image" then
    match payload with
    | some (.obj fields) =>
        let aspectRatio := normaliseAspectRatio (asStringO (jGet fields "aspectRatio"))
        match asStringO (jGet fields "prompt") with
        | none => .respond 400 (jsonError "prompt must be a non-empty string")
        | some p =>
            if (jsTrim p).length = 0 then
              .respond 400 (jsonError "prompt must be a non-empty string")
            else
              let clippedPrompt := clampString (jsTrim p) MAX_MESSAGE_CHARS
              let wh := aspectRatioToSize aspectRatio
              .callProvider (.openaiImage "gpt-image-1" clippedPrompt
                (toString wh.1 ++ "x" ++ toString wh.2))
    | _ => .respond 400 (jsonError "Invalid payload")
  else if action = "compile_bones" then
    match payload with
    | some (.obj fields) =>
        let briefJson := safeJsonStringify (jGet fields "brief") MAX_BRIEF_JSON_CHARS "brief"
        if briefJson.length = 0 then .respond 400 (jsonError "brief is required")
        else .callProvider (.openaiText "gpt-5-nano" compileBonesSystem
          (compileBonesUser briefJson))
    | _ => .respond 400 (jsonError "Invalid payload")
  else if action = "apply_iteration" then
    match payload with
    | some (.obj fields) =>
        match asStringO (jGet fields "changeRequest") with
        | none => .respond 400 (jsonError "changeRequest must be a non-empty string")
        | some cr =>
            if (jsTrim cr).length = 0 then
              .respond 400 (jsonError "changeRequest must be a non-empty string")
            else if cr.length > MAX_CHANGE_REQUEST_CHARS then
              .respond 400 (jsonError "changeRequest too long")
            else
              let codexJson := safeJsonStringify (jGet fields "codex")
                MAX_CODEX_JSON_CHARS "codex"
              .callProvider (.openaiText "gpt-5-nano" applyIterationSystem
                (applyIterationUser codexJson
                  (clampString (jsTrim cr) MAX_CHANGE_REQUEST_CHARS)))
    | _ => .respond 400 (jsonError "Invalid payload")
  else if action = "chat" then
    match payload with
    | some (.obj fields) =>
        match asStringO (jGet fields "message") with
        | none => .respond 400 (jsonError "message must be a non-empty string")
        | some m =>
            if (jsTrim m).length = 0 then
              .respond 400 (jsonError "message must be a non-empty string")
            else if m.length > MAX_MESSAGE_CHARS then
              .respond 400 (jsonError "message too long")
            else
              let historyArr := chatHistoryWindow (jGet fields "history")
              let contextJson := chatContextJson (jGet fields "contextData")
              .callProvider (.openaiText "gpt-5-nano" chatSystem
                (chatUser contextJson
                  (safeJsonStringify (some (.arr historyArr)) MAX_CONTEXT_CHARS "history")
                  (clampString (jsTrim m) MAX_MESSAGE_CHARS)))
    | _ => .respond 400 (jsonError "Invalid payload")
  else .respond 400 (jsonError "Unhandled action")

/-- The OpenAI-style handler (part_008 lines 571-850) up to its first
provider call. `envOk` is whether `OPENAI_API_KEY` is set; `body` is the
parsed request body (`none` when `req.json()` threw). A falsy parsed body
is also rejected by the source's `if (!body)`. -/
def openaiHandler (envOk : Bool) (method : String) (body : Option Json) :
    HandlerStep :=
  if !envOk then
    .respond 500 (jsonErrorD "Server misconfigured" "OPENAI_API_KEY is not set")
  else if method ≠ "POST" then .respond 405 (jsonError "Method not allowed")
  else
    match body with
    | none => .respond 400 (jsonError "Invalid JSON body")
    | some b =>
        if b.isFalsy then .respond 400 (jsonError "Invalid JSON body")
        else
          match jGetV b "action" with
          | some (.str action) =>
              if !(allowedActions.contains action) then
                .respond 400 (jsonErrorD "Unsupported action"
                  ("Supported actions: " ++ String.intercalate ", " allowedActions))
              else openaiDispatch action (jGetV b "payload")
          | _ => .respond 400 (jsonError "Missing or invalid action")

/-!
The Gemini-style handler of `src/api/generate.ts` (lines 159-443). Its body
runs inside one `try`/`catch`; thrown messages are mapped to HTTP 400 when
they contain `"Invalid input"` or `"Missing"` and to 500 otherwise
(generate.ts lines 430-442). The `Except String` monad models the throw.
-/

/-- The source's `validateInput` (generate.ts lines 159-167): non-strings,
falsy values and whitespace-only strings share the missing-or-empty error;
over-long strings get the exceeds error; otherwise the trimmed string is
returned. -/
def validateInput (text : Option Json) (fieldName : String) :
    Except String String :=
  match text with
  | some (Json.str s) =>
      if (jsTrim s).length = 0 then
        Except.error ("Invalid input: " ++ fieldName ++ " is missing or empty.")
      else if s.length > MAX_PROMPT_LENGTH then
        Except.error ("Invalid input: " ++ fieldName ++ " exceeds 2000 characters.")
      else Except.ok (jsTrim s)
  | _ => Except.error ("Invalid input: " ++ fieldName ++ " is missing or empty.")

/-- ASCII model of `s.toUpperCase()`. -/
def jsToUpper (s : String) : String :=
  ⟨s.data.map Char.toUpper⟩

mutual

/-- Model of JavaScript `String(v)` as used by template-literal
interpolation. (One divergence, unexercised here: JS renders `null`
array elements as the empty string inside a joined array.) -/
def jsToString : Json → String
  | .null => "null"
  | .bool true => "true"
  | .bool false => "false"
  | .num lex => lex
  | .str s => s
  | .obj _ => "[object Object]"
  | .arr items => jsToStringItems items

/-- Comma-joined rendering of array items, as `Array.prototype.toString`. -/
def jsToStringItems : List Json → String
  | [] => ""
  | [x] => jsToString x
  | x :: y :: rest => jsToString x ++ "," ++ jsToStringItems (y :: rest)

end

/-- Template interpolation of a possibly missing value: JavaScript renders
`undefined` as the string `"undefined"`. -/
def jsInterp (v : Option Json) : String :=
  match v with
  | some w => jsToString w
  | none => "undefined"

/-- Interpolation of `JSON.stringify(v)` where `v` may be `undefined`
(then `JSON.stringify` yields `undefined`, interpolated as "undefined"). -/
def jsonStringifyInterp (v : Option Json) : String :=
  match v with
  | some w => Json.stringify w
  | none => "undefined"

/-- One codex element's line of the Gemini chat summary (generate.ts
line 371); accessing `toUpperCase`/`substring` on a missing or non-string
field throws (the thrown message only matters through the catch-all's
substring tests, which it fails either way). -/
def codexElemSummary (e : Json) : Except String String := do
  let cat ←
    (match jGetV e "category" with
     | some (Json.str s) => Except.ok (jsToUpper s)
     | _ => Except.error "e.category.toUpperCase is not a function")
  let content ←
    (match jGetV e "content" with
     | some (Json.str s) => Except.ok (strTake s 100)
     | _ => Except.error "e.content.substring is not a function")
  Except.ok ("[" ++ cat ++ "] " ++ jsInterp (jGetV e "title") ++ ": " ++
    content ++ "...")

/-- The Gemini chat branch's codex summary (generate.ts lines 370-372):
empty when `contextData?.codex?.elements` is missing or falsy. -/
def geminiCodexSummary (contextData : Option Json) : Except String String :=
  match jGetO (jGetO contextData "codex") "elements" with
  | some (.arr es) => do
      let ss ← es.mapM codexElemSummary
      pure (String.intercalate "\n" ss)
  | some v =>
      if v.isFalsy then pure "" else Except.error "elements.map is not a function"
  | none => pure ""

/-- The Gemini chat branch's character summary (generate.ts lines
374-376). -/
def geminiCharSummary (contextData : Option Json) : Except String String :=
  match jGetO contextData "characters" with
  | some (.arr cs) =>
      pure (String.intercalate "\n" (cs.map (fun c =>
        "- " ++ jsInterp (jGetV c "name") ++ " (" ++ jsInterp (jGetV c "role")
          ++ "): " ++ jsInterp (jGetV c "motivations"))))
  | some v =>
      if v.isFalsy then pure "" else Except.error "characters.map is not a function"
  | none => pure ""

/-- The `compile_bones` prompt template (generate.ts lines 276-286). -/
def geminiCompileBonesPrompt (t g art setting mech chars : String) : String :=
  "\n        I am building a psychological card game. Synthesize this brief into a Game Codex JSON:" ++
  "\n        TITLE: " ++ t ++
  "\n        GENRE: " ++ g ++
  "\n        ART: " ++ art ++
  "\n        SETTING: " ++ setting ++
  "\n        MECHANICS: " ++ mech ++
  "\n        CHARACTERS: " ++ chars ++
  "\n        \n        Return JSON array of GameElements.\n      "

/-- The `apply_iteration` prompt template (generate.ts lines 326-331). -/
def geminiApplyIterationPrompt (elementsJson validChange : String) : String :=
  "\n        Update this Game Codex based on the user request." ++
  "\n        CURRENT CODEX: " ++ elementsJson ++
  "\n        REQUEST: \"" ++ validChange ++ "\"" ++
  "\n        Return JSON object with \"elements\" array.\n      "

/-- The chat system-instruction template (generate.ts lines 378-383). -/
def geminiChatSystemInstruction (codexSummary charSummary : String) : String :=
  "\n        You are Memorium, a specialist in Psychological Game Design." ++
  "\n        CONTEXT: " ++ codexSummary ++
  "\n        CHARACTERS: " ++ charSummary ++
  "\n        Prioritize emotional resonance.\n      "

/-- The `try` block of the Gemini-style handler (generate.ts lines 236-428):
payload check, action dispatch, per-action validation and prompt
composition; `Except.error` is a thrown message reaching the catch. -/
def geminiTry (body : Json) : Except String HandlerStep :=
  let payload := jGetV body "payload"
  if (payload.getD Json.null).isFalsy then Except.error "Missing payload"
  else
    match jGetV body "action" with
    | some (Json.str a) =>
        if a = "generate_image" then do
          let validPrompt ← validateInput (jGetO payload "prompt") "Prompt"
          pure (.callProvider (.geminiImage "gemini-2.5-flash-image" validPrompt
            (jGetO payload "aspectRatio")))
        else if a = "compile_bones" then
          let brief := jGetO payload "brief"
          if (brief.getD Json.null).isFalsy then Except.error "Missing brief"
          else do
            let t ← validateInput (jGetO brief "title") "Title"
            let g ← validateInput (jGetO brief "genre") "Genre"
            let art ← validateInput (jGetO brief "artStyle") "Art Style"
            let setting ← validateInput (jGetO brief "worldSetting") "Setting"
            let mech ← validateInput (jGetO brief "coreMechanicVisuals") "Mechanics"
            let chars ← validateInput (jGetO brief "keyCharacters") "Characters"
            pure (.callProvider (.geminiContent "gemini-3-flash-preview"
              (geminiCompileBonesPrompt t g art setting mech chars)))
        else if a = "apply_iteration" then do
          let validChange ← validateInput (jGetO payload "changeRequest") "Change Request"
          let elems ←
            (match jGetO payload "codex" with
             | none => Except.error "Cannot read properties of undefined (reading 'elements')"
             | some Json.null => Except.error "Cannot read properties of null (reading 'elements')"
             | some c => Except.ok (jsonStringifyInterp (jGetV c "elements")))
          pure (.callProvider (.geminiContent "gemini-3-pro-preview"
            (geminiApplyIterationPrompt elems validChange)))
        else if a = "chat" then do
          let validMessage ← validateInput (jGetO payload "message") "Message"
          let codexSummary ← geminiCodexSummary (jGetO payload "contextData")
          let charSummary ← geminiCharSummary (jGetO payload "contextData")
          let hist ← (geminiChatHistoryWindow (jGetO payload "history")).mapM
            (fun h => do
              let content ← validateInput (jGetV h "content") "History Content"
              pure ((match jGetV h "role" with
                     | some (Json.str "user") => "user"
                     | _ => "model"), content))
          pure (.callProvider (.geminiChat "gemini-3-flash-preview"
            (geminiChatSystemInstruction codexSummary charSummary) hist validMessage))
        else Except.error "Unknown action requested"
    | _ => Except.error "Unknown action requested"

/-- The Gemini-style handler (generate.ts lines 222-443) up to its first
provider call. `aiOk` is whether `GEMINI_API_KEY` is configured; `body` is
the already-parsed JSON request body. -/
def geminiHandler (aiOk : Bool) (method : String) (body : Json) : HandlerStep :=
  if method ≠ "POST" then .respond 405 (jsonError "Method not allowed")
  else if !aiOk then .respond 503 (jsonError "Service unavailable")
  else
    match geminiTry body with
    | .ok step => step
    | .error msg =>
        let status : Nat :=
          if jsIncludes msg "Invalid input" || jsIncludes msg "Missing" then 400
          else 500
        .respond status
          (if status = 400 then
            Json.obj [("error", Json.str "Request could not be processed."),
                      ("details", Json.str msg)]
           else Json.obj [("error", Json.str "Request could not be processed.")])

/-!
The client-side codex/iterations state machine of `src/App.tsx`
(lines 88-174). The provider results (`compiled`, `updated` codexes) and the
randomly generated ids/timestamps enter as parameters; only the state fields
these three handlers touch are modelled. The failure paths (alert on an
empty brief title, caught provider errors) leave the modelled state
unchanged and are outside the success runs quantified over here.
-/

/-- A codex element (types.ts `GameElement`). -/
structure GameElement where
  id : String
  category : String
  title : String
  content : String
deriving DecidableEq

/-- The codex (types.ts `GameCodex`). -/
structure GameCodex where
  elements : List GameElement
  lastUpdated : Nat
deriving DecidableEq

/-- An iteration snapshot (types.ts `GameIteration`). -/
structure GameIteration where
  id : String
  timestamp : Nat
  changeDescription : String
  codex : GameCodex
deriving DecidableEq

/-- The slice of App state read and written by the three handlers. -/
structure AppState where
  codex : GameCodex
  iterations : List GameIteration
  activeTab : String
deriving DecidableEq

/-- `handleCompileBones` success path (App.tsx lines 88-107): install the
compiled codex and reset the iterations list to a single initial entry. -/
def handleCompileBones (s : AppState) (compiled : GameCodex) (newId : String)
    (now : Nat) : AppState :=
  { s with
    codex := compiled
    iterations := [⟨newId, now, "Initial creative synthesis.", compiled⟩]
    activeTab := "codex" }

/-- `handleApplyIteration` success path (App.tsx lines 140-153): install the
updated codex and append an iteration carrying its snapshot. -/
def handleApplyIteration (s : AppState) (updated : GameCodex)
    (changeRequest newId : String) (now : Nat) : AppState :=
  { s with
    codex := updated
    iterations := s.iterations ++ [⟨newId, now, changeRequest, updated⟩]
    activeTab := "codex" }

/-- `handleRevert` (App.tsx lines 168-174): restore the snapshot of the
first iteration whose id matches; do nothing when none matches. -/
def handleRevert (s : AppState) (id : String) : AppState :=
  match s.iterations.find? (fun it => it.id == id) with
  | some it => { s with codex := it.codex, activeTab := "codex" }
  | none => s

/-- One successful `apply_iteration` round trip's inputs: the provider's
updated codex, the user's change request, and the generated id and
timestamp. -/
structure ApplyStep where
  updated : GameCodex
  changeRequest : String
  newId : String
  now : Nat
deriving DecidableEq

/-- A session: one successful compile followed by any number of successful
apply-iteration steps. -/
def runIterationSession (s0 : AppState) (compiled : GameCodex) (id0 : String)
    (t0 : Nat) (steps : List ApplyStep) : AppState :=
  steps.foldl
    (fun s st => handleApplyIteration s st.updated st.changeRequest st.newId st.now)
    (handleCompileBones s0 compiled id0 t0)

/-- The iteration entry recorded for one apply step. -/
def iterOf (st : ApplyStep) : GameIteration :=
  ⟨st.newId, st.now, st.changeRequest, st.updated⟩

/-!
General lemmas about the embedded string and sanitizer operations, shared
by the claim theorems below.
-/

theorem string_length_data (s : String) : s.length = s.data.length := rfl

theorem string_append_data (a b : String) : (a ++ b).data = a.data ++ b.data := by
  cases a
  cases b
  rfl

theorem string_append_length (a b : String) :
    (a ++ b).length = a.length + b.length := by
  rw [string_length_data, string_append_data, List.length_append]
  rfl

theorem strTake_length (s : String) (n : Nat) :
    (strTake s n).length = min n s.length := by
  rw [string_length_data]
  show (s.data.take n).length = _
  rw [List.length_take]
  rfl

theorem sanitiseOne_toolCallToJson (tc : ToolCall) (h : ¬ tc.name = "") :
    sanitiseOne (toolCallToJson tc) = some tc := by
  show (if tc.name = "" then none else some ⟨tc.name, tc.args⟩ : Option ToolCall) =
    some tc
  rw [if_neg h]

theorem sanitiseOne_name_ne_empty (t : Json) (tc : ToolCall)
    (h : sanitiseOne t = some tc) : ¬ tc.name = "" := by
  unfold sanitiseOne at h
  split at h
  · split at h
    · split at h
      · exact Option.noConfusion h
      · cases h
        assumption
    · exact Option.noConfusion h
  · exact Option.noConfusion h

theorem sanitise_roundtrip_list (l : List ToolCall)
    (h : ∀ tc ∈ l, ¬ tc.name = "") :
    (l.map toolCallToJson).filterMap sanitiseOne = l := by
  induction l with
  | nil => rfl
  | cons a t ih =>
      rw [List.map_cons,
        List.filterMap_cons_some
          (sanitiseOne_toolCallToJson a (h a (List.mem_cons_self a t))),
        ih (fun tc htc => h tc (List.mem_cons_of_mem a htc))]

theorem sanitise_names_ne_empty (x : Json) :
    ∀ tc ∈ sanitiseToolCalls x, ¬ tc.name = "" := by
  intro tc htc
  cases x <;> simp [sanitiseToolCalls] at htc
  case arr items =>
    obtain ⟨t, _, ht⟩ := htc
    exact sanitiseOne_name_ne_empty t tc ht

/-!
Claim theorems. Each claim of the specification receives exactly one
theorem (with a witness or counterexample where applicable).
-/

/-- C9: tool-call sanitization is idempotent. For every JSON value `x`,
re-serializing the sanitized tool-call list as JSON (as the handler does
when returning it to the client) and sanitizing again yields the same
list: `sanitise (sanitise x) = sanitise x`. -/
theorem sanitise_toolcalls_idempotent (x : Json) :
    sanitiseToolCalls (toolCallsToJson (sanitiseToolCalls x)) =
      sanitiseToolCalls x := by
  show (List.map toolCallToJson (sanitiseToolCalls x)).filterMap sanitiseOne = _
  exact sanitise_roundtrip_list _ (sanitise_names_ne_empty x)

/-- The spec's C1 example input: a well-formed `add_task` call, a
well-formed but non-allow-listed `drop_database` call, and a malformed
entry. -/
def c1ToolCalls : Json :=
  Json.arr
    [ Json.obj [("name", Json.str "add_task"),
        ("args", Json.obj [("title", Json.str "X"), ("status", Json.str "TODO")])]
    , Json.obj [("name", Json.str "drop_database"), ("args", Json.obj [])]
    , Json.obj [("badshape", Json.bool true)] ]

/-- C1 counterexample: `sanitiseToolCalls` keeps `drop_database` — it
filters by shape only, not by an allow-list of known tool names — so the
spec's example yields two surviving entries, not one. -/
theorem c1_no_allowlist_counterexample :
    sanitiseToolCalls c1ToolCalls =
      [⟨"add_task", [("title", Json.str "X"), ("status", Json.str "TODO")]⟩,
       ⟨"drop_database", []⟩] ∧
    (sanitiseToolCalls c1ToolCalls).length = 2 :=
  ⟨rfl, rfl⟩

/-- C1 (amended): tool-call sanitization validates only the shape of each
candidate — any entry with a non-empty string `name` and object `args`
survives, regardless of whether the name is a known tool — and on the
spec's example input it returns the two well-shaped entries (`add_task`
and `drop_database`), dropping only the malformed one. -/
theorem sanitise_shape_only :
    (∀ (n : String) (args : List (String × Json)), ¬ n = "" →
      sanitiseToolCalls (Json.arr [toolCallToJson ⟨n, args⟩]) = [⟨n, args⟩]) ∧
    sanitiseToolCalls c1ToolCalls =
      [⟨"add_task", [("title", Json.str "X"), ("status", Json.str "TODO")]⟩,
       ⟨"drop_database", []⟩] := by
  refine ⟨fun n args h => ?_, rfl⟩
  show (List.map toolCallToJson [⟨n, args⟩]).filterMap sanitiseOne = _
  exact sanitise_roundtrip_list [⟨n, args⟩] (by simpa using h)

/-- Witness for `sanitise_shape_only`: the non-allow-listed name
`drop_database` passes the shape filter. -/
theorem sanitise_shape_only_witness :
    ¬ "drop_database" = "" ∧
    sanitiseToolCalls (Json.arr [toolCallToJson ⟨"drop_database", []⟩]) =
      [⟨"drop_database", ([] : List (String × Json))⟩] :=
  ⟨by decide, sanitise_shape_only.1 "drop_database" [] (by decide)⟩

/-- A text whose only JSON object has a string value containing a closing
brace. -/
def c5Text : String := "\x7b\"a\":\"\x7d\"\x7d"

/-- What the brace-depth scanner returns on `c5Text`. -/
def c5Extract : String := "\x7b\"a\":\"\x7d"

/-- C5: the balanced-brace recovery scanner does not track string literals.
On a text that is itself a valid JSON object whose string value contains a
closing brace, `extractJsonObject` returns a proper prefix that differs
from the object and is not parseable JSON, while the text itself parses. -/
theorem extract_json_not_string_aware :
    extractJsonObject c5Text = some c5Extract ∧
    jsonParse c5Extract = none ∧
    jsonParse c5Text = some (Json.obj [("a", Json.str "\x7d")]) ∧
    ¬ c5Extract = c5Text :=
  ⟨rfl, rfl, rfl, by decide⟩

/-- The spec's C6 provider output: prose around a JSON payload. -/
def c6Raw : String := "Sure! \x7b\"text\":\"hi\",\"toolCalls\":[]\x7d thanks"

/-- C6: on provider output with prose around the JSON payload, the chat
normalizer extracts the balanced-brace substring, parses it, and produces
`text = "hi"` with an empty tool-call list. -/
theorem chat_normaliser_recovers_json :
    extractJsonObject c6Raw = some "\x7b\"text\":\"hi\",\"toolCalls\":[]\x7d" ∧
    normaliseChatOutput c6Raw = ⟨"hi", []⟩ :=
  ⟨rfl, rfl⟩

/-- C10: aspect-ratio normalisation is total and collapsing — it always
returns one of `1:1`, `3:4`, `4:3`; any input whose trimmed value is not
exactly one of those three (including the advertised `16:9` and `9:16`)
maps to `3:4`; and the resulting image size is never 16:9 or 9:16. -/
theorem aspect_ratio_collapses :
    (∀ r, normaliseAspectRatio r = "1:1" ∨ normaliseAspectRatio r = "3:4" ∨
      normaliseAspectRatio r = "4:3") ∧
    (∀ s, ¬ (jsTrim s = "1:1" ∨ jsTrim s = "3:4" ∨ jsTrim s = "4:3") →
      normaliseAspectRatio (some s) = "3:4") ∧
    normaliseAspectRatio none = "3:4" ∧
    normaliseAspectRatio (some "16:9") = "3:4" ∧
    normaliseAspectRatio (some "9:16") = "3:4" ∧
    (∀ r, (aspectRatioToSize (normaliseAspectRatio r) = (1024, 1024) ∨
           aspectRatioToSize (normaliseAspectRatio r) = (1536, 1024) ∨
           aspectRatioToSize (normaliseAspectRatio r) = (1024, 1536)) ∧
      ¬ (aspectRatioToSize (normaliseAspectRatio r)).1 * 9 =
          (aspectRatioToSize (normaliseAspectRatio r)).2 * 16 ∧
      ¬ (aspectRatioToSize (normaliseAspectRatio r)).1 * 16 =
          (aspectRatioToSize (normaliseAspectRatio r)).2 * 9) := by
  have htotal : ∀ r, normaliseAspectRatio r = "1:1" ∨
      normaliseAspectRatio r = "3:4" ∨ normaliseAspectRatio r = "4:3" := by
    intro r
    match r with
    | none => exact Or.inr (Or.inl rfl)
    | some s =>
        dsimp only [normaliseAspectRatio]
        split_ifs with h1 h2 h3 h4
        · exact Or.inr (Or.inl rfl)
        · exact Or.inl h2
        · exact Or.inr (Or.inl h3)
        · exact Or.inr (Or.inr h4)
        · exact Or.inr (Or.inl rfl)
  refine ⟨htotal, ?_, rfl, by decide, by decide, ?_⟩
  · intro s h
    dsimp only [normaliseAspectRatio]
    split_ifs with h1 h2 h3 h4
    · rfl
    · exact absurd (Or.inl h2) h
    · exact absurd (Or.inr (Or.inl h3)) h
    · exact absurd (Or.inr (Or.inr h4)) h
    · rfl
  · intro r
    rcases htotal r with h | h | h <;> rw [h] <;> exact ⟨by decide, by decide, by decide⟩

/-- Witness for `aspect_ratio_collapses`: the advertised value `16:9` is
outside the accepted set and collapses to `3:4`. -/
theorem aspect_ratio_collapses_witness :
    ¬ (jsTrim "16:9" = "1:1" ∨ jsTrim "16:9" = "3:4" ∨ jsTrim "16:9" = "4:3") ∧
    normaliseAspectRatio (some "16:9") = "3:4" :=
  ⟨by decide, aspect_ratio_collapses.2.1 "16:9" (by decide)⟩

/-- An 11-turn history, oldest first. -/
def c4History : List Json := (List.range 11).map (fun i => Json.str (toString i))

/-- C4 counterexample: the OpenAI-style chat handler's window is
`slice(-40)`, not `slice(-10)` — an 11-turn history is passed through in
full, so the 11th-most-recent turn is not dropped. -/
theorem chat_history_window_counterexample :
    chatHistoryWindow (some (Json.arr c4History)) = c4History ∧
    (chatHistoryWindow (some (Json.arr c4History))).length = 11 ∧
    10 < 11 :=
  ⟨rfl, by decide, by decide⟩

/-- C4 (amended): each chat path keeps only a bounded most-recent window of
the client-supplied history — the Gemini-style handler of generate.ts keeps
the last at most 10 turns, while the OpenAI-style handler of part_008 keeps
the last at most 40 (`MAX_HISTORY_ITEMS`); in both, the window is a suffix
of the history, so older turns are dropped. -/
theorem chat_history_windows_bounded :
    (∀ h, (geminiChatHistoryWindow h).length ≤ 10) ∧
    (∀ l, geminiChatHistoryWindow (some (Json.arr l)) <:+ l) ∧
    (∀ h, (chatHistoryWindow h).length ≤ MAX_HISTORY_ITEMS) ∧
    (∀ l, chatHistoryWindow (some (Json.arr l)) <:+ l) := by
  refine ⟨?_, ?_, ?_, ?_⟩
  · intro h
    match h with
    | none => exact Nat.zero_le _
    | some (.arr l) =>
        show (l.drop (l.length - 10)).length ≤ 10
        rw [List.length_drop]
        omega
    | some .null | some (.bool _) | some (.num _) | some (.str _)
    | some (.obj _) => exact Nat.zero_le _
  · intro l
    exact List.drop_suffix _ _
  · intro h
    match h with
    | none => exact Nat.zero_le _
    | some (.arr l) =>
        show (l.drop (l.length - MAX_HISTORY_ITEMS)).length ≤ MAX_HISTORY_ITEMS
        rw [List.length_drop]
        omega
    | some .null | some (.bool _) | some (.num _) | some (.str _)
    | some (.obj _) => exact Nat.zero_le _
  · intro l
    exact List.drop_suffix _ _

/-!
Context-truncation lemmas (claim C2). `safeJsonStringify` slices the
serialized value to `maxChars` and then appends the truncation marker, so
the truncated result is longer than the budget by the marker's length.
-/

theorem escapeList_replicate_a (n : Nat) :
    escapeList (List.replicate n 'a') = List.replicate n 'a' := by
  induction n with
  | zero => rfl
  | succ k ih =>
      rw [List.replicate_succ]
      show escapeChar 'a' ++ escapeList (List.replicate k 'a') = _
      rw [ih]
      rfl

/-- A 20100-character string of `a`s. -/
def aChars : String := ⟨List.replicate 20100 'a'⟩

/-- A `contextData` value whose serialization exceeds `MAX_CONTEXT_CHARS`. -/
def bigContext : Json := Json.str aChars

theorem bigContext_stringify_length :
    (Json.stringify bigContext).length = 20102 := by
  have h1 : Json.stringify bigContext = quoteString aChars := by
    simp [bigContext, Json.stringify]
  rw [h1, string_length_data]
  have hq : (quoteString aChars).data = '"' :: (escapeList aChars.data ++ ['"']) :=
    rfl
  rw [hq, List.length_cons, List.length_append]
  have hd : aChars.data = List.replicate 20100 'a' := rfl
  rw [hd, escapeList_replicate_a, List.length_replicate]
  rfl

theorem safeJsonStringify_of_long (v : Option Json) (maxChars : Nat)
    (label : String)
    (h : (Json.stringify (v.getD Json.null)).length > maxChars) :
    safeJsonStringify v maxChars label =
      strTake (Json.stringify (v.getD Json.null)) maxChars ++
        truncationMarker label := by
  show (if (Json.stringify (v.getD Json.null)).length > maxChars then
      strTake (Json.stringify (v.getD Json.null)) maxChars ++
        ("... (\"" ++ label ++ "\" truncated)")
    else Json.stringify (v.getD Json.null)) = _
  rw [if_pos h]
  rfl

/-- C2 counterexample: a context value serializing to 20102 characters is
truncated to 20000 characters plus the 29-character marker — 20029
characters in total — so the serialized string embedded in the prompt
exceeds the configured `MAX_CONTEXT_CHARS` budget. -/
theorem chat_context_budget_counterexample :
    (Json.stringify bigContext).length = 20102 ∧
    MAX_CONTEXT_CHARS < 20102 ∧
    (chatContextJson (some bigContext)).length = 20029 ∧
    ¬ (chatContextJson (some bigContext)).length ≤ MAX_CONTEXT_CHARS := by
  have hbig : (Json.stringify ((some bigContext).getD Json.null)).length >
      MAX_CONTEXT_CHARS := by
    rw [show (some bigContext).getD Json.null = bigContext from rfl,
      bigContext_stringify_length]
    decide
  have hlen : (chatContextJson (some bigContext)).length =
      MAX_CONTEXT_CHARS + (truncationMarker "contextData").length := by
    unfold chatContextJson
    rw [safeJsonStringify_of_long _ _ _ hbig, string_append_length,
      strTake_length, Nat.min_eq_left (Nat.le_of_lt hbig)]
  have hmark : (truncationMarker "contextData").length = 29 := by decide
  refine ⟨bigContext_stringify_length, by decide, ?_, ?_⟩
  · rw [hlen, hmark]
    decide
  · rw [hlen, hmark]
    decide

/-- C2 (amended): for every `contextData` value whose serialization exceeds
`MAX_CONTEXT_CHARS`, the serialized string embedded in the chat prompt ends
with the truncation marker, but its length is `MAX_CONTEXT_CHARS` plus the
marker's length — it exceeds the configured character budget by the
29-character marker instead of staying within it. -/
theorem chat_context_truncated_with_marker (v : Option Json)
    (h : (Json.stringify (v.getD Json.null)).length > MAX_CONTEXT_CHARS) :
    (truncationMarker "contextData").data <:+ (chatContextJson v).data ∧
    (chatContextJson v).length =
      MAX_CONTEXT_CHARS + (truncationMarker "contextData").length ∧
    MAX_CONTEXT_CHARS < (chatContextJson v).length := by
  have he : chatContextJson v =
      strTake (Json.stringify (v.getD Json.null)) MAX_CONTEXT_CHARS ++
        truncationMarker "contextData" := by
    unfold chatContextJson
    exact safeJsonStringify_of_long v MAX_CONTEXT_CHARS "contextData" h
  refine ⟨?_, ?_, ?_⟩
  · rw [he, string_append_data]
    exact List.suffix_append _ _
  · rw [he, string_append_length, strTake_length, Nat.min_eq_left (Nat.le_of_lt h)]
  · rw [he, string_append_length, strTake_length, Nat.min_eq_left (Nat.le_of_lt h)]
    have hpos : 0 < (truncationMarker "contextData").length := by decide
    omega

/-- Witness for `chat_context_truncated_with_marker` at the concrete
oversized context `bigContext`. -/
theorem chat_context_truncated_witness :
    (Json.stringify ((some bigContext).getD Json.null)).length >
      MAX_CONTEXT_CHARS ∧
    (truncationMarker "contextData").data <:+
      (chatContextJson (some bigContext)).data := by
  have hbig : (Json.stringify ((some bigContext).getD Json.null)).length >
      MAX_CONTEXT_CHARS := by
    rw [show (some bigContext).getD Json.null = bigContext from rfl,
      bigContext_stringify_length]
    decide
  exact ⟨hbig, (chat_context_truncated_with_marker (some bigContext) hbig).1⟩

/-!
Dispatch lemmas (claims C3 and C7): reading `action` and `payload` out of a
request body, and running the Gemini-style handler's catch-all on a thrown
message.
-/

theorem jGetV_action (a : String) (p : Json) :
    jGetV (Json.obj [("action", Json.str a), ("payload", p)]) "action" =
      some (Json.str a) := rfl

theorem jGetV_payload (a : String) (p : Json) :
    jGetV (Json.obj [("action", Json.str a), ("payload", p)]) "payload" =
      some p := rfl

theorem except_bind_ok {α β : Type} (a : α) (f : α → Except String β) :
    (Except.ok a >>= f) = f a := rfl

theorem except_bind_error {α β : Type} (m : String) (f : α → Except String β) :
    ((Except.error m : Except String α) >>= f) = Except.error m := rfl

theorem geminiHandler_of_error_400 (body : Json) (msg : String)
    (h : geminiTry body = .error msg)
    (hinc : (jsIncludes msg "Invalid input" || jsIncludes msg "Missing") = true) :
    geminiHandler true "POST" body =
      .respond 400 (Json.obj [("error", Json.str "Request could not be processed."),
        ("details", Json.str msg)]) := by
  unfold geminiHandler
  simp [h, hinc]

theorem geminiHandler_of_error_500 (body : Json) (msg : String)
    (h : geminiTry body = .error msg)
    (h1 : jsIncludes msg "Invalid input" = false)
    (h2 : jsIncludes msg "Missing" = false) :
    geminiHandler true "POST" body =
      .respond 500 (Json.obj [("error", Json.str "Request could not be processed.")]) := by
  unfold geminiHandler
  simp [h, h1, h2]

theorem geminiTry_unknown (a : String) (p : Json) (hp : p.isFalsy = false)
    (h1 : ¬ a = "generate_image") (h2 : ¬ a = "compile_bones")
    (h3 : ¬ a = "apply_iteration") (h4 : ¬ a = "chat") :
    geminiTry (Json.obj [("action", Json.str a), ("payload", p)]) =
      Except.error "Unknown action requested" := by
  unfold geminiTry
  simp [jGetV_payload, jGetV_action, hp, h1, h2, h3, h4]

/-- An unknown-action request with a non-empty payload. -/
def c3Body : Json :=
  Json.obj [("action", Json.str "frobnicate"),
    ("payload", Json.obj [("x", Json.str "y")])]

/-- C3 counterexample: for the unknown action `frobnicate`, the Gemini-style
handler of generate.ts throws `Unknown action requested`, whose message
matches neither `Invalid input` nor `Missing`, so its catch-all responds
with HTTP 500 — not the claimed 400. -/
theorem unknown_action_counterexample :
    stepStatus (geminiHandler true "POST" c3Body) = some 500 ∧
    ¬ (500 : Nat) = 400 :=
  ⟨rfl, by decide⟩

/-- C3 (amended): for every request whose action is a string outside
`{chat, compile_bones, apply_iteration, generate_image}`, no provider is
ever invoked; the OpenAI-style handler responds HTTP 400 (`Unsupported
action`), while the Gemini-style handler of generate.ts falls through to
its catch-all and responds HTTP 500 (for any truthy payload). -/
theorem unknown_action_no_provider :
    (∀ (a : String) (p : Json), allowedActions.contains a = false →
      openaiHandler true "POST"
          (some (Json.obj [("action", Json.str a), ("payload", p)])) =
        .respond 400 (jsonErrorD "Unsupported action"
          ("Supported actions: " ++ String.intercalate ", " allowedActions))) ∧
    (∀ (a : String) (p : Json), allowedActions.contains a = false →
      p.isFalsy = false →
      geminiHandler true "POST"
          (Json.obj [("action", Json.str a), ("payload", p)]) =
        .respond 500
          (Json.obj [("error", Json.str "Request could not be processed.")])) := by
  constructor
  · intro a p hC
    unfold openaiHandler
    simp [jGetV_action, Json.isFalsy, hC]
    intro hm
    simp [allowedActions] at hC hm
    tauto
  · intro a p hC hp
    have hne : ¬ a = "chat" ∧ ¬ a = "compile_bones" ∧ ¬ a = "apply_iteration" ∧
        ¬ a = "generate_image" := by
      simp [allowedActions] at hC
      tauto
    exact geminiHandler_of_error_500 _ _
      (geminiTry_unknown a p hp hne.2.2.2 hne.2.1 hne.2.2.1 hne.1)
      (by decide) (by decide)

/-- Witness for `unknown_action_no_provider` at the action `frobnicate`. -/
theorem unknown_action_no_provider_witness :
    allowedActions.contains "frobnicate" = false ∧
    (Json.obj [("x", Json.str "y")]).isFalsy = false ∧
    openaiHandler true "POST"
        (some (Json.obj [("action", Json.str "frobnicate"),
          ("payload", Json.obj [("x", Json.str "y")])])) =
      .respond 400 (jsonErrorD "Unsupported action"
        ("Supported actions: " ++ String.intercalate ", " allowedActions)) ∧
    geminiHandler true "POST"
        (Json.obj [("action", Json.str "frobnicate"),
          ("payload", Json.obj [("x", Json.str "y")])]) =
      .respond 500
        (Json.obj [("error", Json.str "Request could not be processed.")]) :=
  ⟨by decide, rfl,
    unknown_action_no_provider.1 "frobnicate" (Json.obj [("x", Json.str "y")])
      (by decide),
    unknown_action_no_provider.2 "frobnicate" (Json.obj [("x", Json.str "y")])
      (by decide) rfl⟩

/-!
Validation lemmas (claim C7): every message thrown by `validateInput`
starts with `Invalid input: `, so the Gemini-style catch-all maps it to
HTTP 400; and `validateInput` throws exactly on missing, non-string,
empty, whitespace-only or over-long fields.
-/

/-- A request body `{action, payload}`. -/
def requestBody (a : String) (p : Json) : Json :=
  Json.obj [("action", Json.str a), ("payload", p)]

theorem jGetO_some (v : Json) (k : String) : jGetO (some v) k = jGetV v k := rfl

theorem isPrefixOf_append_self (l r : List Char) :
    l.isPrefixOf (l ++ r) = true := by
  rw [List.isPrefixOf_iff_prefix]
  exact List.prefix_append l r

theorem listIncludes_of_isPrefixOf (pat l : List Char)
    (h : pat.isPrefixOf l = true) : listIncludes pat l = true := by
  cases l with
  | nil =>
      cases pat with
      | nil => rfl
      | cons c cs => exact absurd h (by simp [List.isPrefixOf])
  | cons c rest =>
      unfold listIncludes
      rw [h]
      rfl

theorem string_append_assoc (a b c : String) :
    (a ++ b) ++ c = a ++ (b ++ c) := by
  cases a
  cases b
  cases c
  show String.mk _ = String.mk _
  rw [List.append_assoc]

theorem jsIncludes_invalid_input (r : String) :
    jsIncludes ("Invalid input: " ++ r) "Invalid input" = true := by
  unfold jsIncludes
  have h1 : ("Invalid input: " ++ r) = "Invalid input" ++ (": " ++ r) := by
    rw [← string_append_assoc]
    rfl
  rw [h1, string_append_data]
  exact listIncludes_of_isPrefixOf _ _ (isPrefixOf_append_self _ _)

theorem validateInput_error_form (t : Option Json) (fn m : String)
    (h : validateInput t fn = .error m) : ∃ r, m = "Invalid input: " ++ r := by
  unfold validateInput at h
  split at h
  · split at h
    · cases h
      exact ⟨fn ++ " is missing or empty.", by rw [string_append_assoc]⟩
    · split at h
      · cases h
        exact ⟨fn ++ " exceeds 2000 characters.", by rw [string_append_assoc]⟩
      · exact Except.noConfusion h
  · cases h
    exact ⟨fn ++ " is missing or empty.", by rw [string_append_assoc]⟩

/-- A free-text field value the claim calls invalid: missing or not a
string, or a string that is empty, whitespace-only, or longer than the
configured maximum (`MAX_PROMPT_LENGTH`). -/
def freeTextInvalid (t : Option Json) : Prop :=
  (∀ s, ¬ t = some (Json.str s)) ∨
  (∃ s, t = some (Json.str s) ∧
    ((jsTrim s).length = 0 ∨ s.length > MAX_PROMPT_LENGTH))

theorem validateInput_error_of_invalid (t : Option Json) (fn : String)
    (h : freeTextInvalid t) : ∃ m, validateInput t fn = .error m := by
  rcases h with h | ⟨s, rfl, hs⟩
  · match t with
    | none => exact ⟨_, rfl⟩
    | some Json.null => exact ⟨_, rfl⟩
    | some (Json.bool b) => exact ⟨_, rfl⟩
    | some (Json.num lex) => exact ⟨_, rfl⟩
    | some (Json.str s) => exact absurd rfl (h s)
    | some (Json.arr l) => exact ⟨_, rfl⟩
    | some (Json.obj f) => exact ⟨_, rfl⟩
  · rcases hs with h0 | hlong
    · exact ⟨_, by dsimp only [validateInput]; rw [if_pos h0]⟩
    · by_cases h0 : (jsTrim s).length = 0
      · exact ⟨_, by dsimp only [validateInput]; rw [if_pos h0]⟩
      · exact ⟨_, by dsimp only [validateInput]; rw [if_neg h0, if_pos hlong]⟩

/-- The six required brief sub-fields and their human-readable names
(generate.ts lines 278-283). -/
def briefFields : List (String × String) :=
  [("title", "Title"), ("genre", "Genre"), ("artStyle", "Art Style"),
   ("worldSetting", "Setting"), ("coreMechanicVisuals", "Mechanics"),
   ("keyCharacters", "Characters")]

/-- C7: in the Gemini-style handler of generate.ts, whenever a required
free-text field — `message` for chat, `prompt` for generate_image,
`changeRequest` for apply_iteration, or any brief sub-field for
compile_bones — is missing, not a string, empty, whitespace-only, or
longer than the configured maximum, the handler responds HTTP 400 with the
error body (no `callProvider` outcome): the external provider is never
invoked for that request. -/
theorem validation_rejects_before_provider :
    (∀ p : Json, freeTextInvalid (jGetV p "message") →
      ∃ m, geminiHandler true "POST" (requestBody "chat" p) =
        .respond 400 (Json.obj [("error", Json.str "Request could not be processed."),
          ("details", Json.str m)])) ∧
    (∀ p : Json, freeTextInvalid (jGetV p "prompt") →
      ∃ m, geminiHandler true "POST" (requestBody "generate_image" p) =
        .respond 400 (Json.obj [("error", Json.str "Request could not be processed."),
          ("details", Json.str m)])) ∧
    (∀ p : Json, freeTextInvalid (jGetV p "changeRequest") →
      ∃ m, geminiHandler true "POST" (requestBody "apply_iteration" p) =
        .respond 400 (Json.obj [("error", Json.str "Request could not be processed."),
          ("details", Json.str m)])) ∧
    (∀ (p : Json) (fk fn : String), (fk, fn) ∈ briefFields →
      freeTextInvalid (jGetO (jGetV p "brief") fk) →
      ∃ m, geminiHandler true "POST" (requestBody "compile_bones" p) =
        .respond 400 (Json.obj [("error", Json.str "Request could not be processed."),
          ("details", Json.str m)])) := by
  have hfalsy : ∀ (a : String) (p : Json), p.isFalsy = true →
      geminiTry (requestBody a p) = Except.error "Missing payload" := by
    intro a p hp
    unfold geminiTry
    simp [requestBody, jGetV_payload, hp]
  refine ⟨?_, ?_, ?_, ?_⟩
  · intro p hfree
    by_cases hp : p.isFalsy = true
    · exact ⟨"Missing payload",
        geminiHandler_of_error_400 _ _ (hfalsy _ _ hp) (by decide)⟩
    · have hp' : p.isFalsy = false := by
        revert hp
        cases p.isFalsy <;> simp
      obtain ⟨m, hm⟩ := validateInput_error_of_invalid (jGetV p "message") "Message" hfree
      obtain ⟨r, hr⟩ := validateInput_error_form _ _ _ hm
      refine ⟨m, geminiHandler_of_error_400 _ _ ?_ ?_⟩
      · unfold geminiTry
        simp [requestBody, jGetV_payload, jGetV_action, hp', jGetO_some, hm,
          except_bind_error]
      · rw [hr]
        simp [jsIncludes_invalid_input]
  · intro p hfree
    by_cases hp : p.isFalsy = true
    · exact ⟨"Missing payload",
        geminiHandler_of_error_400 _ _ (hfalsy _ _ hp) (by decide)⟩
    · have hp' : p.isFalsy = false := by
        revert hp
        cases p.isFalsy <;> simp
      obtain ⟨m, hm⟩ := validateInput_error_of_invalid (jGetV p "prompt") "Prompt" hfree
      obtain ⟨r, hr⟩ := validateInput_error_form _ _ _ hm
      refine ⟨m, geminiHandler_of_error_400 _ _ ?_ ?_⟩
      · unfold geminiTry
        simp [requestBody, jGetV_payload, jGetV_action, hp', jGetO_some, hm,
          except_bind_error]
      · rw [hr]
        simp [jsIncludes_invalid_input]
  · intro p hfree
    by_cases hp : p.isFalsy = true
    · exact ⟨"Missing payload",
        geminiHandler_of_error_400 _ _ (hfalsy _ _ hp) (by decide)⟩
    · have hp' : p.isFalsy = false := by
        revert hp
        cases p.isFalsy <;> simp
      obtain ⟨m, hm⟩ :=
        validateInput_error_of_invalid (jGetV p "changeRequest") "Change Request" hfree
      obtain ⟨r, hr⟩ := validateInput_error_form _ _ _ hm
      refine ⟨m, geminiHandler_of_error_400 _ _ ?_ ?_⟩
      · unfold geminiTry
        simp [requestBody, jGetV_payload, jGetV_action, hp', jGetO_some, hm,
          except_bind_error]
      · rw [hr]
        simp [jsIncludes_invalid_input]
  · intro p fk fn hmem hfree
    by_cases hp : p.isFalsy = true
    · exact ⟨"Missing payload",
        geminiHandler_of_error_400 _ _ (hfalsy _ _ hp) (by decide)⟩
    have hp' : p.isFalsy = false := by
      revert hp
      cases p.isFalsy <;> simp
    by_cases hb : ((jGetV p "brief").getD Json.null).isFalsy = true
    · refine ⟨"Missing brief", geminiHandler_of_error_400 _ _ ?_ (by decide)⟩
      unfold geminiTry
      simp [requestBody, jGetV_payload, jGetV_action, hp', jGetO_some, hb]
    have hb' : ((jGetV p "brief").getD Json.null).isFalsy = false := by
      revert hb
      cases ((jGetV p "brief").getD Json.null).isFalsy <;> simp
    obtain ⟨m, hm⟩ := validateInput_error_of_invalid (jGetO (jGetV p "brief") fk) fn hfree
    have close400 : ∀ mi : String,
        geminiTry (requestBody "compile_bones" p) = Except.error mi →
        (∃ r, mi = "Invalid input: " ++ r) →
        ∃ m2, geminiHandler true "POST" (requestBody "compile_bones" p) =
          .respond 400 (Json.obj [("error", Json.str "Request could not be processed."),
            ("details", Json.str m2)]) := by
      intro mi hTry ⟨r, hr⟩
      refine ⟨mi, geminiHandler_of_error_400 _ _ hTry ?_⟩
      rw [hr]
      simp [jsIncludes_invalid_input]
    cases hE1 : validateInput (jGetO (jGetV p "brief") "title") "Title" with
    | error m1 =>
        refine close400 m1 ?_ (validateInput_error_form _ _ _ hE1)
        unfold geminiTry
        simp [requestBody, jGetV_payload, jGetV_action, hp', jGetO_some, hb', hE1,
          except_bind_error]
    | ok v1 =>
    cases hE2 : validateInput (jGetO (jGetV p "brief") "genre") "Genre" with
    | error m2 =>
        refine close400 m2 ?_ (validateInput_error_form _ _ _ hE2)
        unfold geminiTry
        simp [requestBody, jGetV_payload, jGetV_action, hp', jGetO_some, hb', hE1, hE2,
          except_bind_ok, except_bind_error]
    | ok v2 =>
    cases hE3 : validateInput (jGetO (jGetV p "brief") "artStyle") "Art Style" with
    | error m3 =>
        refine close400 m3 ?_ (validateInput_error_form _ _ _ hE3)
        unfold geminiTry
        simp [requestBody, jGetV_payload, jGetV_action, hp', jGetO_some, hb', hE1, hE2,
          hE3, except_bind_ok, except_bind_error]
    | ok v3 =>
    cases hE4 : validateInput (jGetO (jGetV p "brief") "worldSetting") "Setting" with
    | error m4 =>
        refine close400 m4 ?_ (validateInput_error_form _ _ _ hE4)
        unfold geminiTry
        simp [requestBody, jGetV_payload, jGetV_action, hp', jGetO_some, hb', hE1, hE2,
          hE3, hE4, except_bind_ok, except_bind_error]
    | ok v4 =>
    cases hE5 : validateInput (jGetO (jGetV p "brief") "coreMechanicVisuals") "Mechanics" with
    | error m5 =>
        refine close400 m5 ?_ (validateInput_error_form _ _ _ hE5)
        unfold geminiTry
        simp [requestBody, jGetV_payload, jGetV_action, hp', jGetO_some, hb', hE1, hE2,
          hE3, hE4, hE5, except_bind_ok, except_bind_error]
    | ok v5 =>
    cases hE6 : validateInput (jGetO (jGetV p "brief") "keyCharacters") "Characters" with
    | error m6 =>
        refine close400 m6 ?_ (validateInput_error_form _ _ _ hE6)
        unfold geminiTry
        simp [requestBody, jGetV_payload, jGetV_action, hp', jGetO_some, hb', hE1, hE2,
          hE3, hE4, hE5, hE6, except_bind_ok, except_bind_error]
    | ok v6 =>
        exfalso
        simp [briefFields] at hmem
        rcases hmem with ⟨rfl, rfl⟩ | ⟨rfl, rfl⟩ | ⟨rfl, rfl⟩ | ⟨rfl, rfl⟩ |
          ⟨rfl, rfl⟩ | ⟨rfl, rfl⟩
        · rw [hE1] at hm
          exact Except.noConfusion hm
        · rw [hE2] at hm
          exact Except.noConfusion hm
        · rw [hE3] at hm
          exact Except.noConfusion hm
        · rw [hE4] at hm
          exact Except.noConfusion hm
        · rw [hE5] at hm
          exact Except.noConfusion hm
        · rw [hE6] at hm
          exact Except.noConfusion hm

/-- Witness for `validation_rejects_before_provider`: a whitespace-only
chat message is rejected with HTTP 400. -/
theorem validation_rejects_witness :
    freeTextInvalid (jGetV (Json.obj [("message", Json.str "   ")]) "message") ∧
    (∃ m, geminiHandler true "POST"
        (requestBody "chat" (Json.obj [("message", Json.str "   ")])) =
      .respond 400 (Json.obj [("error", Json.str "Request could not be processed."),
        ("details", Json.str m)])) := by
  have hfree : freeTextInvalid (jGetV (Json.obj [("message", Json.str "   ")]) "message") :=
    Or.inr ⟨"   ", rfl, Or.inl (by decide)⟩
  exact ⟨hfree, validation_rejects_before_provider.1 _ hfree⟩

/-!
Iteration/revert lemmas (claim C8): a session's iteration list is the
initial compile snapshot followed by one entry per apply step; with
distinct iteration ids, `find?` locates exactly the requested iteration.
-/

theorem foldl_apply_iterations (steps : List ApplyStep) (s : AppState) :
    (steps.foldl
      (fun s st => handleApplyIteration s st.updated st.changeRequest st.newId st.now)
      s).iterations = s.iterations ++ steps.map iterOf := by
  induction steps generalizing s with
  | nil => simp
  | cons a t ih =>
      rw [List.foldl_cons, ih]
      simp [handleApplyIteration, iterOf]

theorem run_iterations (s0 : AppState) (compiled : GameCodex) (id0 : String)
    (t0 : Nat) (steps : List ApplyStep) :
    (runIterationSession s0 compiled id0 t0 steps).iterations =
      ⟨id0, t0, "Initial creative synthesis.", compiled⟩ :: steps.map iterOf := by
  unfold runIterationSession
  rw [foldl_apply_iterations]
  rfl

theorem find_id_of_nodup (l : List GameIteration) (it : GameIteration)
    (hmem : it ∈ l) (hnd : (l.map GameIteration.id).Nodup) :
    l.find? (fun x => x.id == it.id) = some it := by
  induction l with
  | nil => cases hmem
  | cons a t ih =>
      rw [List.map_cons, List.nodup_cons] at hnd
      rcases List.mem_cons.mp hmem with rfl | hmem2
      · rw [List.find?_cons_of_pos _ (by simp)]
      · have hne : ¬ (a.id == it.id) = true := by
          simp only [beq_iff_eq]
          intro he
          exact hnd.1 (he ▸ List.mem_map_of_mem GameIteration.id hmem2)
        rw [show List.find? (fun x => x.id == it.id) (a :: t) =
            List.find? (fun x => x.id == it.id) t from
          List.find?_cons_of_neg _ hne]
        exact ih hmem2 hnd.2

/-- C8: after a successful `compile_bones` and any number of successful
`apply_iteration` steps, as long as the generated iteration ids are
distinct, reverting to any recorded iteration's id makes the current codex
structurally equal to the codex snapshot stored in that iteration. -/
theorem revert_restores_snapshot (s0 : AppState) (compiled : GameCodex)
    (id0 : String) (t0 : Nat) (steps : List ApplyStep)
    (hids : (id0 :: steps.map ApplyStep.newId).Nodup)
    (it : GameIteration)
    (hit : it ∈ (runIterationSession s0 compiled id0 t0 steps).iterations) :
    (handleRevert (runIterationSession s0 compiled id0 t0 steps) it.id).codex =
      it.codex := by
  have hiter := run_iterations s0 compiled id0 t0 steps
  have hnd : ((runIterationSession s0 compiled id0 t0 steps).iterations.map
      GameIteration.id).Nodup := by
    rw [hiter]
    simpa [iterOf, List.map_map, Function.comp] using hids
  have hfind := find_id_of_nodup _ it hit hnd
  unfold handleRevert
  rw [hfind]

/-- The compiled codex of the C8 witness run. -/
def codexA : GameCodex := ⟨[⟨"e1", "premise", "Premise", "A coma world."⟩], 5⟩

/-- The updated codex of the C8 witness run's single apply step. -/
def codexB : GameCodex := ⟨[⟨"e2", "story", "Story", "Add darkness."⟩], 9⟩

/-- The C8 witness session: compile, then one apply-iteration step. -/
def sessionAB : AppState :=
  runIterationSession ⟨⟨[], 0⟩, [], "dashboard"⟩ codexA "it0" 5
    [⟨codexB, "add darkness", "it1", 9⟩]

/-- Witness for `revert_restores_snapshot`: in a concrete two-iteration
session, reverting to the initial iteration's id restores the compiled
codex. -/
theorem revert_restores_snapshot_witness :
    ("it0" :: ([⟨codexB, "add darkness", "it1", 9⟩] :
        List ApplyStep).map ApplyStep.newId).Nodup ∧
    (handleRevert sessionAB "it0").codex = codexA :=
  ⟨by decide,
    revert_restores_snapshot ⟨⟨[], 0⟩, [], "dashboard"⟩ codexA "it0" 5
      [⟨codexB, "add darkness", "it1", 9⟩] (by decide)
      ⟨"it0", 5, "Initial creative synthesis.", codexA⟩ (by decide)⟩

end Memorium
